import Mathlib

/-!
Verification of the CSRF protection subsystem of the httpsy repository.

Bytes are modelled as natural numbers below 256, byte buffers as `List Nat`.
Go's in-place mutation is modelled by explicit value passing: a function that
mutates a buffer in Go is a Lean function returning the new buffer.  The
random source (`randomNoise`) is modelled by passing the generated bytes as an
explicit argument, so properties can be stated for every value the random
bytes may take.
-/

namespace Httpsy

/-- From the source: `const csrfTokenLength = 32`. -/
def csrfTokenLength : Nat := 32

/-- From the source (`oneTimePad(pad, key []byte)`): XOR each byte of `pad`
with the corresponding byte of `key`, for every index of `key`; bytes of
`pad` beyond the length of `key` are left unchanged. -/
def oneTimePad (pad key : List Nat) : List Nat :=
  List.zipWith (fun a b => a ^^^ b) pad key ++ pad.drop key.length

/-- From the source (`csrfMask(secret, unmasked []byte)`): the first
`csrfTokenLength` bytes of the buffer (the nonce slot) are overwritten with
fresh random bytes (here the explicit argument `noise`), and the second half
(the token slot) is XORed first with the nonce and then with the secret.
The original content of the nonce slot is discarded. -/
def csrfMask (secret unmasked noise : List Nat) : List Nat :=
  noise ++ oneTimePad (oneTimePad (unmasked.drop csrfTokenLength) noise) secret

/-- From the source (`csrfUnmask(secret, masked []byte)`): the token slot is
XORed first with the secret and then with the nonce read from the first half
of the buffer, undoing `csrfMask`. -/
def csrfUnmask (secret masked : List Nat) : List Nat :=
  masked.take csrfTokenLength ++
    oneTimePad (oneTimePad (masked.drop csrfTokenLength) secret)
      (masked.take csrfTokenLength)

/-! ### Base64 (Go `encoding/base64`)

`csrfVerify` decodes its two arguments with `base64.URLEncoding.Decode` into
fixed-size arrays.  Go's `Decode(dst, src)` processes `src` in quanta of four
characters, skips interior newlines, handles `=` padding, rejects non-zero
trailing bits, stops at the first corrupt character (returning the number of
bytes written so far), and writes each quantum's bytes into `dst` without
checking its remaining capacity — an input decoding to more bytes than `dst`
holds makes it index past the end of `dst` (a runtime panic).  The model
below mirrors that behaviour; a panic is represented by `none`. -/

/-- URL-safe base64 alphabet (Go `base64.URLEncoding`): sextet to ASCII. -/
def b64UrlEncodeChar (s : Nat) : Nat :=
  if s < 26 then 65 + s
  else if s < 52 then 97 + (s - 26)
  else if s < 62 then 48 + (s - 52)
  else if s = 62 then 45
  else 95

/-- Decode map of the URL-safe alphabet; 255 marks an invalid character,
as in Go's `decodeMap`. -/
def b64UrlDecodeByte (c : Nat) : Nat :=
  if 65 ≤ c ∧ c ≤ 90 then c - 65
  else if 97 ≤ c ∧ c ≤ 122 then 26 + (c - 97)
  else if 48 ≤ c ∧ c ≤ 57 then 52 + (c - 48)
  else if c = 45 then 62
  else if c = 95 then 63
  else 255

/-- Decode map of the standard alphabet (Go `base64.StdEncoding`). -/
def b64StdDecodeByte (c : Nat) : Nat :=
  if 65 ≤ c ∧ c ≤ 90 then c - 65
  else if 97 ≤ c ∧ c ≤ 122 then 26 + (c - 97)
  else if 48 ≤ c ∧ c ≤ 57 then 52 + (c - 48)
  else if c = 43 then 62
  else if c = 47 then 63
  else 255

/-- Go `base64.URLEncoding.EncodeToString`: three input bytes become four
alphabet characters; a final chunk of one or two bytes is padded with
`=` (ASCII 61). -/
def b64UrlEncode : List Nat → List Nat
  | [] => []
  | [a] => [b64UrlEncodeChar (a / 4), b64UrlEncodeChar (a % 4 * 16), 61, 61]
  | [a, b] => [b64UrlEncodeChar (a / 4), b64UrlEncodeChar (a % 4 * 16 + b / 16),
      b64UrlEncodeChar (b % 16 * 4), 61]
  | a :: b :: c :: rest =>
      b64UrlEncodeChar (a / 4) :: b64UrlEncodeChar (a % 4 * 16 + b / 16) ::
        b64UrlEncodeChar (b % 16 * 4 + c / 64) :: b64UrlEncodeChar (c % 64) ::
        b64UrlEncode rest

/-- Newline bytes skipped by Go's base64 decoder. -/
def isNL (c : Nat) : Bool := c = 10 || c = 13

/-- Skip leading newline bytes, as the decoder does after padding. -/
def skipNL : List Nat → List Nat
  | [] => []
  | c :: rest => if isNL c then skipNL rest else c :: rest

/-- Result of decoding one four-character quantum (Go `decodeQuantum`):
`stop e` — no bytes written for this quantum, decoding ends (`e` = corrupt
input); `out bs rest e` — bytes `bs` written, remaining input `rest`,
`e` = trailing-garbage error (decoding ends when it is set); `panicked` —
the write ran past the end of the destination buffer. -/
inductive QuantumResult where
  | stop : Bool → QuantumResult
  | out : List Nat → List Nat → Bool → QuantumResult
  | panicked : QuantumResult
deriving DecidableEq

/-- Write phase of Go `decodeQuantum`: convert the collected sextets
(`dbuf`, of length 2, 3 or 4) into bytes, writing them into the remaining
`cap` bytes of the destination (highest index first, hence the capacity
thresholds), and rejecting non-zero trailing bits of a padded quantum. -/
def dqEmit (cap : Nat) (dbuf : List Nat) (rest : List Nat) (garbage : Bool) :
    QuantumResult :=
  match dbuf with
  | [d0, d1, d2, d3] =>
      let val := d0 * 262144 + d1 * 4096 + d2 * 64 + d3
      if cap < 3 then .panicked
      else .out [val / 65536 % 256, val / 256 % 256, val % 256] rest garbage
  | [d0, d1, d2] =>
      let val := d0 * 262144 + d1 * 4096 + d2 * 64
      if cap < 2 then .panicked
      else if val % 256 ≠ 0 then .stop true
      else .out [val / 65536 % 256, val / 256 % 256] rest garbage
  | [d0, d1] =>
      let val := d0 * 262144 + d1 * 4096
      if cap < 1 then .panicked
      else if val / 256 % 256 ≠ 0 ∨ val % 256 ≠ 0 then .stop true
      else .out [val / 65536 % 256] rest garbage
  | _ => .stop true

/-- Collection phase of Go `decodeQuantum` for a padded encoding: gather up
to four sextets, skipping newlines; on `=` (ASCII 61) after two sextets a
second `=` is required; after the final padding any remaining character is
trailing garbage.  A quantum cut short by the end of input is corrupt
unless no character of it was read. -/
def dqCollect (dmap : Nat → Nat) (cap : Nat) :
    List Nat → List Nat → QuantumResult
  | [], dbuf => if dbuf.length = 0 then .stop false else .stop true
  | c :: rest, dbuf =>
      let d := dmap c
      if d ≠ 255 then
        if (dbuf ++ [d]).length = 4 then dqEmit cap (dbuf ++ [d]) rest false
        else dqCollect dmap cap rest (dbuf ++ [d])
      else if isNL c then dqCollect dmap cap rest dbuf
      else if c ≠ 61 then .stop true
      else
        match dbuf.length with
        | 0 => .stop true
        | 1 => .stop true
        | 2 =>
            match skipNL rest with
            | [] => .stop true
            | c2 :: rest2 =>
                if c2 ≠ 61 then .stop true
                else
                  let rest3 := skipNL rest2
                  dqEmit cap dbuf rest3 (rest3 ≠ [])
        | _ =>
            let rest3 := skipNL rest
            dqEmit cap dbuf rest3 (rest3 ≠ [])

/-- Go `Encoding.Decode` loop: decode quanta until the input is exhausted
or an error occurs, tracking the remaining destination capacity.  Returns
`none` on a destination overrun (panic), otherwise the bytes written, their
count `n`, and whether a corrupt-input error was reported.  `fuel` only
bounds the recursion; any value of at least the source length is enough
(see `b64DecodeLoop_fuel_irrelevant`). -/
def b64DecodeLoop (dmap : Nat → Nat) :
    Nat → Nat → List Nat → Option (List Nat × Nat × Bool)
  | _, _, [] => some ([], 0, false)
  | 0, _, _ => some ([], 0, true)
  | fuel + 1, cap, c :: srcTail =>
      match dqCollect dmap cap (c :: srcTail) [] with
      | .stop e => some ([], 0, e)
      | .panicked => none
      | .out bs rest e =>
          if e then some (bs, bs.length, true)
          else
            match b64DecodeLoop dmap fuel (cap - bs.length) rest with
            | none => none
            | some (bs2, n2, e2) => some (bs ++ bs2, bs.length + n2, e2)

/-- Go `Encoding.Decode` into a destination buffer of `cap` bytes. -/
def b64Decode (dmap : Nat → Nat) (cap : Nat) (src : List Nat) :
    Option (List Nat × Nat × Bool) :=
  b64DecodeLoop dmap src.length cap src

/-- Go `subtle.ConstantTimeCompare`: 1 when the inputs have equal length
and equal contents, 0 otherwise (the OR-accumulator of byte XORs). -/
def constantTimeCompare (x y : List Nat) : Nat :=
  if x.length ≠ y.length then 0
  else if (List.zipWith (fun a b => a ^^^ b) x y).foldr (fun a b => a ||| b) 0 = 0
  then 1 else 0

/-- From the source (`csrfVerify(secret []byte, unmaskedRealToken,
maskedSentToken string) bool`): decode the real token into a 32-byte buffer
and the sent token into a 64-byte buffer (returning false on a length
mismatch, the decode error itself being discarded), unmask the sent buffer,
and compare its token half with the real token in constant time.  The token
arguments are the byte sequences of the Go strings; `none` models a panic
inside the base64 decode. -/
def csrfVerify (secret realTok sentTok : List Nat) : Option Bool :=
  match b64Decode b64UrlDecodeByte csrfTokenLength realTok with
  | none => none
  | some (rbuf, n, _) =>
      if n ≠ csrfTokenLength then some false
      else
        match b64Decode b64UrlDecodeByte (2 * csrfTokenLength) sentTok with
        | none => none
        | some (sbuf, m, _) =>
            if m ≠ 2 * csrfTokenLength then some false
            else some (constantTimeCompare rbuf
              ((csrfUnmask secret sbuf).drop csrfTokenLength) == 1)

/-! ### Signed tokens (session-bound CSRF-HMAC variant)

`csrfCreateToken` and `csrfVerifyToken` use `time.Now()` and HMAC-SHA256.
The current instant is passed explicitly as nanoseconds since the Unix
epoch (`now : Int`; a Go `time.Duration` is likewise an `Int` of
nanoseconds).  The keyed hash (`crypto/hmac` with `crypto/sha256` —
standard-library code outside this repository, modelled from the spec's
"computes HMAC-SHA256(secret, expiry_bytes ‖ sessionID)") is an abstract
parameter `mac : key → message → digest` producing a 32-byte digest. -/

/-- Go `binary.LittleEndian.PutUint64`. -/
def putUint64LE (n : Nat) : List Nat :=
  [n % 256, n / 256 % 256, n / 65536 % 256, n / 16777216 % 256,
   n / 4294967296 % 256, n / 1099511627776 % 256,
   n / 281474976710656 % 256, n / 72057594037927936 % 256]

/-- Go `binary.LittleEndian.Uint64` of the first eight bytes. -/
def readUint64LE (bs : List Nat) : Nat :=
  bs.getD 0 0 + bs.getD 1 0 * 256 + bs.getD 2 0 * 65536 +
    bs.getD 3 0 * 16777216 + bs.getD 4 0 * 4294967296 +
    bs.getD 5 0 * 1099511627776 + bs.getD 6 0 * 281474976710656 +
    bs.getD 7 0 * 72057594037927936

/-- Go conversion `uint64(x)` of a signed 64-bit value. -/
def toUint64 (i : Int) : Nat := (i % (2 ^ 64 : Int)).toNat

/-- Go conversion `int64(x)` of an unsigned 64-bit value. -/
def toInt64 (n : Nat) : Int := if n < 2 ^ 63 then (n : Int) else (n : Int) - 2 ^ 64

/-- Go `hmac.Equal`: constant-time equality of two MACs. -/
def hmacEqual (x y : List Nat) : Bool := constantTimeCompare x y == 1

/-- From the source (`csrfCreateToken(secret, sessionID string, d
time.Duration) []byte`): the expiry instant is `now + d`; the first eight
token bytes are the little-endian `uint64` of `endTime.Unix()` (the floor
of the expiry in seconds), the next eight the little-endian `uint64` of
`endTime.UnixNano()` (the total nanosecond count since the epoch), and the
final 32 the digest of those sixteen bytes followed by the session ID. -/
def csrfCreateToken (mac : List Nat → List Nat → List Nat)
    (secret sessionID : List Nat) (d : Int) (now : Int) : List Nat :=
  let endTime := now + d
  let buf := putUint64LE (toUint64 (endTime.fdiv 1000000000)) ++
    putUint64LE (toUint64 endTime)
  buf ++ mac secret (buf ++ sessionID)

/-- From the source (`csrfVerifyToken(secret, token []byte, sessionID
string) bool`): reject unless the token is 48 bytes; recompute the digest
over the first sixteen bytes and the session ID and compare in constant
time; then read the two little-endian 64-bit fields as `int64` values
`secs` and `nsec`, reconstruct the expiry as `time.Unix(secs, nsec)` —
the instant `secs` seconds plus `nsec` nanoseconds after the epoch — and
accept only while `now` is before that instant. -/
def csrfVerifyToken (mac : List Nat → List Nat → List Nat)
    (secret token sessionID : List Nat) (now : Int) : Bool :=
  if token.length ≠ 48 then false
  else if ¬ hmacEqual (token.drop 16) (mac secret (token.take 16 ++ sessionID))
  then false
  else
    let secs := toInt64 (readUint64LE (token.take 8))
    let nsec := toInt64 (readUint64LE ((token.drop 8).take 8))
    decide (now < secs * 1000000000 + nsec)

/-! ### Request interception protocol

A request carries the fields the CSRF handlers read.  Its form and
multipart accessors and the cookie jar are functions; byte-string values
(`List Nat`) stand for Go strings, with `[]` for the empty string.
`net/url.Parse` (standard library, outside the repository) is passed to
the handlers abstractly as `parse : String → Option URLRec`: `none`
models a parse error (a nil URL), `some u` a parsed URL with its scheme,
host and rendered `String()` form. -/

structure URLRec where
  scheme : String
  host : String
  full : String
deriving DecidableEq

structure Request where
  method : String
  urlScheme : String
  urlHost : String
  urlPath : String
  originHeader : String
  refererHeader : String
  xForwardedHostHeader : String
  hostHeader : String
  xCsrfTokenHeader : List Nat
  postForm : String → List Nat
  multipart : Option (String → List (List Nat))
  cookies : String → Option (List Nat)

/-- From the source (`Safe(r)`): GET, HEAD, OPTIONS and TRACE are safe. -/
def Safe (r : Request) : Bool :=
  r.method == "GET" || r.method == "HEAD" || r.method == "OPTIONS" ||
    r.method == "TRACE"

/-- Modelled from the spec: Go `path.Match` glob semantics (standard
library, outside the repository) — `*` matches any run of non-separator
characters, `?` one non-separator character, a backslash escapes the next
character, every other character matches itself.  (Character classes are
not modelled; none of the properties below exercise them.) -/
def pathMatchFuel : Nat → List Char → List Char → Bool
  | 0, _, _ => false
  | fuel + 1, pattern, name =>
      match pattern, name with
      | [], [] => true
      | [], _ :: _ => false
      | '*' :: ps, [] => pathMatchFuel fuel ps []
      | '*' :: ps, c :: ns =>
          pathMatchFuel fuel ps (c :: ns) ||
            (c != '/' && pathMatchFuel fuel ('*' :: ps) ns)
      | '?' :: _, [] => false
      | '?' :: ps, c :: ns => c != '/' && pathMatchFuel fuel ps ns
      | '\\' :: p :: ps, c :: ns => p == c && pathMatchFuel fuel ps ns
      | '\\' :: _, _ => false
      | _ :: _, [] => false
      | p :: ps, c :: ns => p == c && pathMatchFuel fuel ps ns

def pathMatch (pattern name : List Char) : Bool :=
  pathMatchFuel (pattern.length + name.length + 1) pattern name

/-- From the source (`stringsMatch(patterns, v)`): true when any pattern
matches `v`. -/
def stringsMatch (patterns : List String) (v : String) : Bool :=
  patterns.any fun p => pathMatch p.toList v.toList

/-- UTF-8 bytes of a Go string. -/
def strBytes (s : String) : List Nat := s.toUTF8.toList.map (fun b => b.toNat)

/-- Go `strings.HasPrefix`, over the character lists of the strings. -/
def hasPrefix (s pre : String) : Bool := pre.toList.isPrefixOf s.toList

/-- Standard base64 alphabet (Go `base64.StdEncoding`): sextet to ASCII. -/
def b64StdEncodeChar (s : Nat) : Nat :=
  if s < 26 then 65 + s
  else if s < 52 then 97 + (s - 26)
  else if s < 62 then 48 + (s - 52)
  else if s = 62 then 43
  else 47

/-- Go `base64.StdEncoding.EncodeToString`. -/
def b64StdEncode : List Nat → List Nat
  | [] => []
  | [a] => [b64StdEncodeChar (a / 4), b64StdEncodeChar (a % 4 * 16), 61, 61]
  | [a, b] => [b64StdEncodeChar (a / 4), b64StdEncodeChar (a % 4 * 16 + b / 16),
      b64StdEncodeChar (b % 16 * 4), 61]
  | a :: b :: c :: rest =>
      b64StdEncodeChar (a / 4) :: b64StdEncodeChar (a % 4 * 16 + b / 16) ::
        b64StdEncodeChar (b % 16 * 4 + c / 64) :: b64StdEncodeChar (c % 64) ::
        b64StdEncode rest

/-- Go `base64.StdEncoding.DecodeString`: decode into a freshly allocated
buffer of `DecodedLen(len(s)) = len(s)/4*3` bytes, returning the bytes
written so far; the decode error is discarded by the caller.  The buffer
can never be overrun at this capacity, so the panic branch is
unreachable. -/
def b64StdDecodeString (src : List Nat) : List Nat :=
  match b64Decode b64StdDecodeByte (src.length / 4 * 3) src with
  | some (bs, _, _) => bs
  | none => []

/-! #### Masked-token (double-submit-cookie) variant -/

/-- Configuration of the masked-variant `CSRF` middleware struct. -/
structure CSRFMasked where
  secret : List Nat
  exemptPaths : List String
  exemptFunc : Option (Request → Bool)
  cookieName : String
  fieldName : String
  path : String
  domain : String
  secure : Bool
  httpOnly : Bool
  sameSite : Nat

/-- From the source (masked `CSRF.exempt`): safe methods are exempt;
otherwise `ExemptFunc` decides when set, else the path globs decide. -/
def CSRFMasked.exempt (cfg : CSRFMasked) (r : Request) : Bool :=
  if Safe r then true
  else match cfg.exemptFunc with
    | some f => f r
    | none => stringsMatch cfg.exemptPaths r.urlPath

/-- From the source (masked `CSRF.extractToken`): the `X-CSRF-Token`
header, else the POST form field, else the first multipart value. -/
def CSRFMasked.extractToken (cfg : CSRFMasked) (r : Request) : List Nat :=
  if r.xCsrfTokenHeader ≠ [] then r.xCsrfTokenHeader
  else if r.postForm cfg.fieldName ≠ [] then r.postForm cfg.fieldName
  else match r.multipart with
    | some form =>
        match form cfg.fieldName with
        | [] => []
        | v :: _ => v
    | none => []

/-- From the source (the referer check of the masked handler): reject
when the Referer header fails to parse, renders as the empty string, or
does not share scheme and host with the request URL. -/
def refererFails (parse : String → Option URLRec) (r : Request) : Bool :=
  match parse r.refererHeader with
  | none => true
  | some ref =>
      ref.full == "" || !(ref.scheme == r.urlScheme && ref.host == r.urlHost)

/-- A `Set-Cookie` record written by `http.SetCookie`. -/
structure SetCookieRec where
  name : String
  value : List Nat
  path : String
  domain : String
  maxAge : Nat
  secure : Bool
  httpOnly : Bool
  sameSite : Nat
deriving DecidableEq

/-- Observable outcome of one masked-variant request: response headers
(`Vary`, `Set-Cookie`, `X-CSRF-Token`), the token attached to the request
context, the middleware's own status and error value (`none` when the
request reaches the downstream handler), and whether that handler ran. -/
structure MaskedRun where
  vary : List String
  cookieSet : Option SetCookieRec
  ctxToken : Option (List Nat × String)
  xCsrfHeader : Option (List Nat)
  status : Option Nat
  errMsg : Option String
  nextInvoked : Bool
deriving DecidableEq

/-- From the source (, the request-handling closure of the masked
`CSRF.Handler`), in its statement order: add `Vary: Cookie`; read the CSRF
cookie and decode it into the second half of the 64-byte buffer (an
overlong cookie value overruns it: panic, `none`); when the decode does
not yield exactly 32 bytes, overwrite the slot with fresh random bytes
(`noiseCookie`) and emit a `Set-Cookie` with a one-year max-age; mask the
buffer with a fresh nonce (`noiseNonce`) and attach the masked token to
the request context; then, unless the request is exempt, run the
encrypted-scheme referer check (403 with the generic Forbidden error) and
the token verification (403 with `ErrBadCSRF`, "csrf validation failed");
finally set the `X-CSRF-Token` response header and invoke the downstream
handler. -/
def maskedServe (cfg : CSRFMasked) (parse : String → Option URLRec)
    (r : Request) (noiseCookie noiseNonce : List Nat) : Option MaskedRun :=
  let realToken0 := (r.cookies cfg.cookieName).getD []
  match b64Decode b64UrlDecodeByte csrfTokenLength realToken0 with
  | none => none
  | some (ckBytes, n, _) =>
      let regen := n ≠ csrfTokenLength
      let cookieTok := if regen then noiseCookie else ckBytes
      let realToken := if regen then b64UrlEncode noiseCookie else realToken0
      let cookieSet : Option SetCookieRec :=
        if regen then
          some { name := cfg.cookieName, value := realToken, path := cfg.path,
                 domain := cfg.domain, maxAge := 365 * 24 * 60 * 60,
                 secure := cfg.secure, httpOnly := cfg.httpOnly,
                 sameSite := cfg.sameSite }
        else none
      let maskedReal := b64UrlEncode
        (csrfMask cfg.secret (List.replicate csrfTokenLength 0 ++ cookieTok)
          noiseNonce)
      let ex := cfg.exempt r
      if !ex && r.urlScheme == "https" && refererFails parse r then
        some { vary := ["Cookie"], cookieSet := cookieSet,
               ctxToken := some (maskedReal, cfg.fieldName), xCsrfHeader := none,
               status := some 403, errMsg := some "Forbidden",
               nextInvoked := false }
      else if ex then
        some { vary := ["Cookie"], cookieSet := cookieSet,
               ctxToken := some (maskedReal, cfg.fieldName),
               xCsrfHeader := some maskedReal, status := none, errMsg := none,
               nextInvoked := true }
      else
        match csrfVerify cfg.secret realToken (cfg.extractToken r) with
        | none => none
        | some ok =>
            if ok then
              some { vary := ["Cookie"], cookieSet := cookieSet,
                     ctxToken := some (maskedReal, cfg.fieldName),
                     xCsrfHeader := some maskedReal, status := none,
                     errMsg := none, nextInvoked := true }
            else
              some { vary := ["Cookie"], cookieSet := cookieSet,
                     ctxToken := some (maskedReal, cfg.fieldName),
                     xCsrfHeader := none, status := some 403,
                     errMsg := some "csrf validation failed",
                     nextInvoked := false }

/-- From the source (masked `CSRF.Handler`): the construction-time sanity
checks, in order — empty cookie name, empty field name, a `__Host-`
cookie without the Secure flag or with a domain or a non-root path, a
`__Secure-` cookie without the Secure flag.  Each panics (`none`): the
request-handling closure is never built. -/
def CSRFMasked.Handler (cfg : CSRFMasked) :
    Option ((String → Option URLRec) → Request → List Nat → List Nat →
      Option MaskedRun) :=
  if cfg.cookieName == "" then none
  else if cfg.fieldName == "" then none
  else if hasPrefix cfg.cookieName "__Host-" &&
      (!cfg.secure || cfg.domain != "" || cfg.path != "/") then none
  else if hasPrefix cfg.cookieName "__Secure-" && !cfg.secure then none
  else some fun parse r noiseCookie noiseNonce =>
    maskedServe cfg parse r noiseCookie noiseNonce

/-! #### Signed-token (session-bound CSRF-HMAC) variant -/

/-- Configuration of the HMAC-variant `CSRF` middleware struct. -/
structure CSRFHmac where
  exemptPaths : List String
  exemptFunc : Option (Request → Bool)
  expires : Int
  formKey : String
  secret : List Nat
  sessionFunc : Option (Request → String × Bool)

/-- From the source (HMAC `CSRF.exempt`), identical in structure to the
masked variant's. -/
def CSRFHmac.exempt (cfg : CSRFHmac) (r : Request) : Bool :=
  if Safe r then true
  else match cfg.exemptFunc with
    | some f => f r
    | none => stringsMatch cfg.exemptPaths r.urlPath

/-- From the source (HMAC `CSRF.extractToken`). -/
def CSRFHmac.extractToken (cfg : CSRFHmac) (r : Request) : List Nat :=
  if r.xCsrfTokenHeader ≠ [] then r.xCsrfTokenHeader
  else if r.postForm cfg.formKey ≠ [] then r.postForm cfg.formKey
  else match r.multipart with
    | some form =>
        match form cfg.formKey with
        | [] => []
        | v :: _ => v
    | none => []

/-- From the source (`sourceOrigin(r, fallback)`): the parsed `Origin`
header, else the parsed `Referer` header, else the fallback URL; a parse
error yields a nil URL (`none`). -/
def sourceOrigin (parse : String → Option URLRec) (r : Request)
    (fallback : URLRec) : Option URLRec :=
  if r.originHeader ≠ "" then parse r.originHeader
  else if r.refererHeader ≠ "" then parse r.refererHeader
  else some fallback

/-- From the source (`targetOrigin(r, fallback)`): the parsed
`X-Forwarded-Host` header, else the parsed `Host` header, else the
fallback URL. -/
def targetOrigin (parse : String → Option URLRec) (r : Request)
    (fallback : URLRec) : Option URLRec :=
  if r.xForwardedHostHeader ≠ "" then parse r.xForwardedHostHeader
  else if r.hostHeader ≠ "" then parse r.hostHeader
  else some fallback

/-- From the source (`sameOrigin(url1, url2)` of the HMAC-variant
revision): both URLs non-nil with equal scheme and host. -/
def sameOriginOpt : Option URLRec → Option URLRec → Bool
  | some u1, some u2 => u1.scheme == u2.scheme && u1.host == u2.host
  | _, _ => false

/-- Observable outcome of one HMAC-variant request.  The handler adds no
`Vary` header anywhere; the field records what was added (always `[]`). -/
structure HmacRun where
  vary : List String
  xCsrfHeader : Option (List Nat)
  status : Option Nat
  errMsg : Option String
  nextInvoked : Bool
deriving DecidableEq

/-- From the source (the request-handling closure of the HMAC
`CSRF.Handler`): look up the session; unless the request is exempt, run
the origin check on an encrypted scheme, reject when there is no session,
and verify the extracted token — each failure is
`Error(w, r, StatusForbidden)`, a 403 with the same generic Forbidden
error value; then, when a session exists, create a fresh signed token in
the `X-CSRF-Token` response header; finally invoke the downstream
handler.  `sf` is the configured session function, `mac` and `now` as in
`csrfCreateToken`. -/
def hmacServe (cfg : CSRFHmac) (sf : Request → String × Bool)
    (parse : String → Option URLRec) (mac : List Nat → List Nat → List Nat)
    (now : Int) (r : Request) : HmacRun :=
  let s := sf r
  let sessionID := s.1
  let session := s.2
  let reqURL : URLRec := { scheme := r.urlScheme, host := r.urlHost, full := "" }
  let originFails : Bool :=
    r.urlScheme == "https" &&
      !(sameOriginOpt (sourceOrigin parse r reqURL) (targetOrigin parse r reqURL))
  let reject : HmacRun :=
    { vary := [], xCsrfHeader := none, status := some 403,
      errMsg := some "Forbidden", nextInvoked := false }
  if !(cfg.exempt r) &&
      (originFails || !session ||
        !(csrfVerifyToken mac cfg.secret
            (b64StdDecodeString (cfg.extractToken r)) (strBytes sessionID) now))
  then reject
  else
    { vary := [],
      xCsrfHeader :=
        if session then
          some (b64StdEncode
            (csrfCreateToken mac cfg.secret (strBytes sessionID) cfg.expires now))
        else none,
      status := none, errMsg := none, nextInvoked := true }

/-- From the source (HMAC `CSRF.Handler`): construction-time sanity
checks — empty secret, zero expiry, missing session function — each
panics (`none`) before the request-handling closure is built. -/
def CSRFHmac.Handler (cfg : CSRFHmac) :
    Option ((String → Option URLRec) → (List Nat → List Nat → List Nat) →
      Int → Request → HmacRun) :=
  if cfg.secret == [] then none
  else if cfg.expires == 0 then none
  else match cfg.sessionFunc with
    | none => none
    | some sf => some fun parse mac now r => hmacServe cfg sf parse mac now r

/-! #### Concrete inputs used by witnesses and counterexamples -/

/-- A minimal valid masked-variant configuration. -/
def cfgM0 : CSRFMasked :=
  { secret := List.replicate 32 0, exemptPaths := [], exemptFunc := none,
    cookieName := "c", fieldName := "f", path := "", domain := "",
    secure := false, httpOnly := false, sameSite := 0 }

/-- A minimal valid HMAC-variant configuration. -/
def cfgH0 : CSRFHmac :=
  { exemptPaths := [], exemptFunc := none, expires := 3600000000000,
    formKey := "f", secret := [1], sessionFunc := some fun _ => ("a", true) }

/-- A concrete URL parser: the attacker page, the empty string, and
nothing else. -/
def parse0 : String → Option URLRec := fun s =>
  if s == "http://evil.com" then some { scheme := "http", host := "evil.com", full := s }
  else if s == "" then some { scheme := "", host := "", full := "" }
  else none

/-- A bare POST request over plain http with no cookie and no token. -/
def reqPost : Request :=
  { method := "POST", urlScheme := "http", urlHost := "example.com",
    urlPath := "/", originHeader := "", refererHeader := "",
    xForwardedHostHeader := "", hostHeader := "", xCsrfTokenHeader := [],
    postForm := fun _ => [], multipart := none, cookies := fun _ => none }

/-- A POST over https whose Referer names an attacker origin. -/
def reqEvilReferer : Request :=
  { reqPost with urlScheme := "https", refererHeader := "http://evil.com" }

/-- A POST whose CSRF cookie is 44 base64 characters, decoding to 33
bytes — one more than the 32-byte buffer holds. -/
def reqOverlongCookie : Request :=
  { reqPost with cookies := fun name =>
      if name == "c" then some (List.replicate 44 65) else none }

/-- A GET request (safe method). -/
def reqGet : Request := { reqPost with method := "GET" }

/-- The observable run of `maskedServe cfgM0 parse0 reqPost` with
all-zero noise: cookie regenerated (none was sent), token verification
fails, 403 with `ErrBadCSRF`. -/
def cookiePost : SetCookieRec :=
  { name := "c", value := List.replicate 43 65 ++ [61], path := "",
    domain := "", maxAge := 31536000, secure := false, httpOnly := false,
    sameSite := 0 }

def runPost : MaskedRun :=
  { vary := ["Cookie"], cookieSet := some cookiePost,
    ctxToken := some (List.replicate 86 65 ++ [61, 61], "f"),
    xCsrfHeader := none, status := some 403,
    errMsg := some "csrf validation failed", nextInvoked := false }

theorem oneTimePad_length (pad key : List Nat) (h : key.length ≤ pad.length) :
    (oneTimePad pad key).length = pad.length := by
  simp [oneTimePad]
  omega

theorem oneTimePad_eq_zipWith (pad key : List Nat) (h : pad.length = key.length) :
    oneTimePad pad key = List.zipWith (fun a b => a ^^^ b) pad key := by
  simp [oneTimePad, List.drop_eq_nil_of_le h.le]

theorem zipWith_xor_cancel (pad key : List Nat) (h : pad.length = key.length) :
    List.zipWith (fun a b => a ^^^ b)
      (List.zipWith (fun a b => a ^^^ b) pad key) key = pad := by
  induction pad generalizing key with
  | nil => simp
  | cons a as ih =>
      cases key with
      | nil => simp at h
      | cons b bs =>
          simp only [List.zipWith_cons_cons]
          rw [ih bs (by simpa using h)]
          rw [Nat.xor_assoc, Nat.xor_self, Nat.xor_zero]

theorem oneTimePad_cancel (pad key : List Nat) (h : pad.length = key.length) :
    oneTimePad (oneTimePad pad key) key = pad := by
  have h1 : (oneTimePad pad key).length = key.length := by
    rw [oneTimePad_length pad key h.ge]; exact h
  rw [oneTimePad_eq_zipWith _ key h1, oneTimePad_eq_zipWith pad key h]
  exact zipWith_xor_cancel pad key h

/-- Core cancellation: unmasking a masked buffer restores the token half. -/
theorem csrfUnmask_csrfMask (secret front t noise : List Nat)
    (hs : secret.length = csrfTokenLength) (ht : t.length = csrfTokenLength)
    (hf : front.length = csrfTokenLength) (hn : noise.length = csrfTokenLength) :
    csrfUnmask secret (csrfMask secret (front ++ t) noise) = noise ++ t := by
  have hdrop : (front ++ t).drop csrfTokenLength = t := by
    rw [← hf]; exact List.drop_left front t
  have h1 : (oneTimePad t noise).length = csrfTokenLength := by
    rw [oneTimePad_length t noise (by omega)]; exact ht
  have h2 : (oneTimePad (oneTimePad t noise) secret).length = csrfTokenLength := by
    rw [oneTimePad_length _ secret (by omega)]; exact h1
  simp only [csrfMask, csrfUnmask, hdrop]
  have htake : (noise ++ oneTimePad (oneTimePad t noise) secret).take csrfTokenLength
      = noise := by
    rw [← hn]; exact List.take_left noise _
  have hdrop2 : (noise ++ oneTimePad (oneTimePad t noise) secret).drop csrfTokenLength
      = oneTimePad (oneTimePad t noise) secret := by
    rw [← hn]; exact List.drop_left noise _
  rw [htake, hdrop2]
  rw [oneTimePad_cancel (oneTimePad t noise) secret (by omega)]
  rw [oneTimePad_cancel t noise (by omega)]

/-- C1: Mask/unmask round-trip.  For every 32-byte secret and every 64-byte
buffer laid out as nonce‖token, applying `csrfMask` (which fills the nonce
slot with fresh random bytes and XORs the token slot with the nonce then the
secret) followed by `csrfUnmask` with the same secret restores the token half
of the buffer to its original value, for every value the generated nonce may
take. -/
theorem csrf_mask_unmask_roundtrip (secret front t noise : List Nat)
    (hs : secret.length = csrfTokenLength) (ht : t.length = csrfTokenLength)
    (hf : front.length = csrfTokenLength) (hn : noise.length = csrfTokenLength) :
    (csrfUnmask secret (csrfMask secret (front ++ t) noise)).drop csrfTokenLength
      = t := by
  rw [csrfUnmask_csrfMask secret front t noise hs ht hf hn, ← hn]
  exact List.drop_left noise t

/-- Witness for C1 at a concrete input. -/
theorem csrf_mask_unmask_roundtrip_witness :
    (csrfUnmask (List.replicate 32 7)
        (csrfMask (List.replicate 32 7)
          (List.replicate 32 0 ++ List.replicate 32 5) (List.replicate 32 9))).drop
        csrfTokenLength
      = List.replicate 32 5 :=
  csrf_mask_unmask_roundtrip (List.replicate 32 7) (List.replicate 32 0)
    (List.replicate 32 5) (List.replicate 32 9) (by simp [csrfTokenLength])
    (by simp [csrfTokenLength]) (by simp [csrfTokenLength]) (by simp [csrfTokenLength])

theorem b64Url_char_roundtrip : ∀ s, s < 64 →
    b64UrlDecodeByte (b64UrlEncodeChar s) = s := by decide

/-- Induction over a byte list in the three-byte chunks of base64. -/
theorem chunk3_induction (P : List Nat → Prop) (h0 : P []) (h1 : ∀ a, P [a])
    (h2 : ∀ a b, P [a, b])
    (h3 : ∀ a b c rest, P rest → P (a :: b :: c :: rest)) : ∀ bs, P bs
  | [] => h0
  | [a] => h1 a
  | [a, b] => h2 a b
  | a :: b :: c :: rest => h3 a b c rest (chunk3_induction P h0 h1 h2 h3 rest)

theorem dqCollect_four_data (cap s0 s1 s2 s3 : Nat) (rest : List Nat)
    (h0 : s0 < 64) (h1 : s1 < 64) (h2 : s2 < 64) (h3 : s3 < 64) :
    dqCollect b64UrlDecodeByte cap
      (b64UrlEncodeChar s0 :: b64UrlEncodeChar s1 :: b64UrlEncodeChar s2 ::
        b64UrlEncodeChar s3 :: rest) [] =
      dqEmit cap [s0, s1, s2, s3] rest false := by
  have e0 := b64Url_char_roundtrip s0 h0
  have e1 := b64Url_char_roundtrip s1 h1
  have e2 := b64Url_char_roundtrip s2 h2
  have e3 := b64Url_char_roundtrip s3 h3
  simp [dqCollect, e0, e1, e2, e3, show s0 ≠ 255 by omega, show s1 ≠ 255 by omega,
    show s2 ≠ 255 by omega, show s3 ≠ 255 by omega]

theorem dqEmit_four (cap a b c : Nat) (rest : List Nat) (ha : a < 256)
    (hb : b < 256) (hc : c < 256) (hcap : 3 ≤ cap) :
    dqEmit cap [a / 4, a % 4 * 16 + b / 16, b % 16 * 4 + c / 64, c % 64] rest false
      = .out [a, b, c] rest false := by
  simp only [dqEmit]
  rw [if_neg (by omega)]
  simp only [QuantumResult.out.injEq, List.cons.injEq, and_true]
  omega

theorem dqEmit_three (cap a b : Nat) (rest : List Nat) (g : Bool) (ha : a < 256)
    (hb : b < 256) (hcap : 2 ≤ cap) :
    dqEmit cap [a / 4, a % 4 * 16 + b / 16, b % 16 * 4] rest g
      = .out [a, b] rest g := by
  simp only [dqEmit]
  rw [if_neg (by omega), if_neg (by simp; omega)]
  simp only [QuantumResult.out.injEq, List.cons.injEq, and_true]
  omega

theorem dqEmit_two (cap a : Nat) (rest : List Nat) (g : Bool) (ha : a < 256)
    (hcap : 1 ≤ cap) :
    dqEmit cap [a / 4, a % 4 * 16] rest g = .out [a] rest g := by
  simp only [dqEmit]
  rw [if_neg (by omega), if_neg (by push_neg; constructor <;> omega)]
  simp only [QuantumResult.out.injEq, List.cons.injEq, and_true]
  omega

theorem dqCollect_one_byte (cap a : Nat) (ha : a < 256) (hcap : 1 ≤ cap) :
    dqCollect b64UrlDecodeByte cap (b64UrlEncode [a]) [] = .out [a] [] false := by
  have e0 := b64Url_char_roundtrip (a / 4) (by omega)
  have e1 := b64Url_char_roundtrip (a % 4 * 16) (by omega)
  simp only [b64UrlEncode]
  rw [show dqCollect b64UrlDecodeByte cap
    [b64UrlEncodeChar (a / 4), b64UrlEncodeChar (a % 4 * 16), 61, 61] [] =
    dqEmit cap [a / 4, a % 4 * 16] [] false from by
      simp [dqCollect, e0, e1, show a / 4 ≠ 255 by omega,
        show a % 4 * 16 ≠ 255 by omega, show b64UrlDecodeByte 61 = 255 from by decide,
        show isNL 61 = false from by decide, skipNL]]
  exact dqEmit_two cap a [] false ha hcap

theorem dqCollect_two_bytes (cap a b : Nat) (ha : a < 256) (hb : b < 256)
    (hcap : 2 ≤ cap) :
    dqCollect b64UrlDecodeByte cap (b64UrlEncode [a, b]) [] = .out [a, b] [] false := by
  have e0 := b64Url_char_roundtrip (a / 4) (by omega)
  have e1 := b64Url_char_roundtrip (a % 4 * 16 + b / 16) (by omega)
  have e2 := b64Url_char_roundtrip (b % 16 * 4) (by omega)
  simp only [b64UrlEncode]
  rw [show dqCollect b64UrlDecodeByte cap
    [b64UrlEncodeChar (a / 4), b64UrlEncodeChar (a % 4 * 16 + b / 16),
      b64UrlEncodeChar (b % 16 * 4), 61] [] =
    dqEmit cap [a / 4, a % 4 * 16 + b / 16, b % 16 * 4] [] false from by
      simp [dqCollect, e0, e1, e2, show a / 4 ≠ 255 by omega,
        show a % 4 * 16 + b / 16 ≠ 255 by omega, show b % 16 * 4 ≠ 255 by omega,
        show b64UrlDecodeByte 61 = 255 from by decide,
        show isNL 61 = false from by decide, skipNL]]
  exact dqEmit_three cap a b [] false ha hb hcap

theorem b64UrlDecodeLoop_encode (bs : List Nat) (hbs : ∀ x ∈ bs, x < 256) :
    ∀ fuel, (b64UrlEncode bs).length ≤ fuel →
      b64DecodeLoop b64UrlDecodeByte fuel bs.length (b64UrlEncode bs) =
        some (bs, bs.length, false) := by
  induction bs using chunk3_induction with
  | h0 => intro fuel _; simp [b64UrlEncode, b64DecodeLoop]
  | h1 a =>
      intro fuel hf
      have ha : a < 256 := hbs a (by simp)
      match fuel, hf with
      | fuel + 1, _ =>
          rw [show b64UrlEncode [a] = b64UrlEncodeChar (a / 4) ::
            (b64UrlEncodeChar (a % 4 * 16) :: 61 :: 61 :: []) from rfl]
          rw [b64DecodeLoop]
          rw [show b64UrlEncodeChar (a / 4) ::
            (b64UrlEncodeChar (a % 4 * 16) :: 61 :: 61 :: []) = b64UrlEncode [a] from rfl]
          rw [dqCollect_one_byte _ a ha (by simp)]
          simp [b64DecodeLoop]
  | h2 a b =>
      intro fuel hf
      have ha : a < 256 := hbs a (by simp)
      have hb : b < 256 := hbs b (by simp)
      match fuel, hf with
      | fuel + 1, _ =>
          rw [show b64UrlEncode [a, b] = b64UrlEncodeChar (a / 4) ::
            (b64UrlEncodeChar (a % 4 * 16 + b / 16) ::
              b64UrlEncodeChar (b % 16 * 4) :: 61 :: []) from rfl]
          rw [b64DecodeLoop]
          rw [show b64UrlEncodeChar (a / 4) ::
            (b64UrlEncodeChar (a % 4 * 16 + b / 16) ::
              b64UrlEncodeChar (b % 16 * 4) :: 61 :: []) = b64UrlEncode [a, b] from rfl]
          rw [dqCollect_two_bytes _ a b ha hb (by simp)]
          simp [b64DecodeLoop]
  | h3 a b c rest ih =>
      intro fuel hf
      have ha : a < 256 := hbs a (by simp)
      have hb : b < 256 := hbs b (by simp)
      have hc : c < 256 := hbs c (by simp)
      have hrest : ∀ x ∈ rest, x < 256 := fun x hx => hbs x (by simp [hx])
      have hlen : (b64UrlEncode (a :: b :: c :: rest)).length =
          4 + (b64UrlEncode rest).length := by
        simp [b64UrlEncode]; omega
      match fuel, hf with
      | fuel + 1, hf =>
          rw [show b64UrlEncode (a :: b :: c :: rest) = b64UrlEncodeChar (a / 4) ::
            (b64UrlEncodeChar (a % 4 * 16 + b / 16) ::
              b64UrlEncodeChar (b % 16 * 4 + c / 64) :: b64UrlEncodeChar (c % 64) ::
              b64UrlEncode rest) from rfl]
          rw [b64DecodeLoop]
          rw [dqCollect_four_data _ (a / 4) (a % 4 * 16 + b / 16) (b % 16 * 4 + c / 64)
            (c % 64) (b64UrlEncode rest) (by omega) (by omega) (by omega) (by omega)]
          rw [dqEmit_four _ a b c (b64UrlEncode rest) ha hb hc (by simp)]
          have hfuel : (b64UrlEncode rest).length ≤ fuel := by
            rw [hlen] at hf; omega
          simp only [List.length_cons, List.length_nil]
          rw [show rest.length + 1 + 1 + 1 - (0 + 1 + 1 + 1) = rest.length from by omega]
          rw [ih hrest fuel hfuel]
          simp
          omega

/-- Decoding an encoded byte list into a buffer of exactly that list's
length recovers the list, with no error and no panic. -/
theorem b64Url_decode_encode (bs : List Nat) (hbs : ∀ x ∈ bs, x < 256) :
    b64Decode b64UrlDecodeByte bs.length (b64UrlEncode bs) =
      some (bs, bs.length, false) :=
  b64UrlDecodeLoop_encode bs hbs _ le_rfl

theorem nat_or_eq_zero (a b : Nat) : a ||| b = 0 ↔ a = 0 ∧ b = 0 := by
  constructor
  · intro h
    refine ⟨Nat.eq_of_testBit_eq fun i => ?_, Nat.eq_of_testBit_eq fun i => ?_⟩ <;>
      · have hb := congrArg (fun n => n.testBit i) h
        simp only [Nat.testBit_or, Nat.zero_testBit, Bool.or_eq_false_iff] at hb ⊢
        simp [hb.1, hb.2]
  · rintro ⟨rfl, rfl⟩; simp

theorem foldr_or_xor_eq_zero (x y : List Nat) (h : x.length = y.length) :
    ((List.zipWith (fun a b => a ^^^ b) x y).foldr (fun a b => a ||| b) 0 = 0)
      ↔ x = y := by
  induction x generalizing y with
  | nil => cases y with
      | nil => simp
      | cons b bs => simp at h
  | cons a as ih =>
      cases y with
      | nil => simp at h
      | cons b bs =>
          simp only [List.zipWith_cons_cons, List.foldr_cons, List.cons.injEq]
          rw [nat_or_eq_zero, Nat.xor_eq_zero, ih bs (by simpa using h)]

theorem constantTimeCompare_eq_one (x y : List Nat) :
    constantTimeCompare x y = 1 ↔ x = y := by
  rw [constantTimeCompare]
  by_cases hl : x.length = y.length
  · rw [if_neg (by simpa using hl)]
    by_cases hxy : x = y
    · rw [if_pos ((foldr_or_xor_eq_zero x y hl).mpr hxy)]
      simp [hxy]
    · rw [if_neg (fun h => hxy ((foldr_or_xor_eq_zero x y hl).mp h))]
      simp [hxy]
  · rw [if_pos (by simpa using hl)]
    constructor
    · intro h; simp at h
    · intro h; exact absurd (congrArg List.length h) hl

theorem oneTimePad_bytes : ∀ pad key : List Nat, (∀ x ∈ pad, x < 256) →
    (∀ x ∈ key, x < 256) → ∀ x ∈ oneTimePad pad key, x < 256
  | pad, [] => by simp [oneTimePad]
  | [], _ :: _ => by simp [oneTimePad]
  | a :: as, b :: bs => by
      intro hp hk x hx
      simp only [oneTimePad, List.zipWith_cons_cons, List.length_cons,
        List.drop_succ_cons, List.cons_append, List.mem_cons] at hx
      rcases hx with rfl | hx
      · have h2 : (256 : Nat) = 2 ^ 8 := by norm_num
        rw [h2]
        exact Nat.xor_lt_two_pow (h2 ▸ hp a (by simp)) (h2 ▸ hk b (by simp))
      · exact oneTimePad_bytes as bs (fun z hz => hp z (by simp [hz]))
          (fun z hz => hk z (by simp [hz])) x hx

theorem csrfMask_length (secret buf noise : List Nat)
    (hs : secret.length = csrfTokenLength) (hb : buf.length = 2 * csrfTokenLength)
    (hn : noise.length = csrfTokenLength) :
    (csrfMask secret buf noise).length = 2 * csrfTokenLength := by
  have hd : (buf.drop csrfTokenLength).length = csrfTokenLength := by
    simp [hb]; omega
  rw [csrfMask, List.length_append,
    oneTimePad_length _ secret (by rw [oneTimePad_length _ noise (by omega)]; omega),
    oneTimePad_length _ noise (by omega), hd, hn]
  omega

theorem csrfMask_bytes (secret buf noise : List Nat)
    (hsb : ∀ x ∈ secret, x < 256) (hbb : ∀ x ∈ buf, x < 256)
    (hnb : ∀ x ∈ noise, x < 256) : ∀ x ∈ csrfMask secret buf noise, x < 256 := by
  intro x hx
  rw [csrfMask, List.mem_append] at hx
  rcases hx with h | h
  · exact hnb x h
  · exact oneTimePad_bytes _ secret
      (oneTimePad_bytes _ noise (fun z hz => hbb z (List.mem_of_mem_drop hz)) hnb)
      hsb x h

/-- C3: Verify accepts genuine pairs.  For every 32-byte secret, every
32-byte token and any nonce, `csrfVerify secret (base64 token)
(base64 (csrfMask secret (nonce‖token)))` returns true, where the masked
argument is the base64 encoding of the full 64-byte buffer produced by
`csrfMask` (`some true`: the call returns true and does not panic). -/
theorem csrf_verify_accepts_genuine (secret t front noise : List Nat)
    (hs : secret.length = csrfTokenLength) (ht : t.length = csrfTokenLength)
    (hf : front.length = csrfTokenLength) (hn : noise.length = csrfTokenLength)
    (hsb : ∀ x ∈ secret, x < 256) (htb : ∀ x ∈ t, x < 256)
    (hfb : ∀ x ∈ front, x < 256) (hnb : ∀ x ∈ noise, x < 256) :
    csrfVerify secret (b64UrlEncode t)
      (b64UrlEncode (csrfMask secret (front ++ t) noise)) = some true := by
  have hbuf : (front ++ t).length = 2 * csrfTokenLength := by
    simp [hf, ht]; omega
  have hbufb : ∀ x ∈ front ++ t, x < 256 := by
    intro x hx; rw [List.mem_append] at hx
    rcases hx with h | h
    · exact hfb x h
    · exact htb x h
  have hmlen := csrfMask_length secret (front ++ t) noise hs hbuf hn
  have hmb := csrfMask_bytes secret (front ++ t) noise hsb hbufb hnb
  have hr := b64Url_decode_encode t htb
  rw [ht] at hr
  have hsent := b64Url_decode_encode _ hmb
  rw [hmlen] at hsent
  rw [csrfVerify, hr]
  simp only [ne_eq, not_true_eq_false, if_false, reduceIte]
  rw [hsent]
  simp only [ne_eq, not_true_eq_false, if_false, reduceIte]
  rw [csrf_mask_unmask_roundtrip secret front t noise hs ht hf hn]
  rw [show constantTimeCompare t t = 1 from (constantTimeCompare_eq_one t t).mpr rfl]
  rfl

/-- Witness for C3 at a concrete input. -/
theorem csrf_verify_accepts_genuine_witness :
    csrfVerify (List.replicate 32 7) (b64UrlEncode (List.replicate 32 5))
      (b64UrlEncode (csrfMask (List.replicate 32 7)
        (List.replicate 32 0 ++ List.replicate 32 5) (List.replicate 32 9)))
      = some true :=
  csrf_verify_accepts_genuine (List.replicate 32 7) (List.replicate 32 5)
    (List.replicate 32 0) (List.replicate 32 9)
    (by simp [csrfTokenLength]) (by simp [csrfTokenLength])
    (by simp [csrfTokenLength]) (by simp [csrfTokenLength])
    (by intro x hx; rw [List.eq_of_mem_replicate hx]; omega)
    (by intro x hx; rw [List.eq_of_mem_replicate hx]; omega)
    (by intro x hx; rw [List.eq_of_mem_replicate hx]; omega)
    (by intro x hx; rw [List.eq_of_mem_replicate hx]; omega)

/-- C4 counterexample: the claim says `csrfVerify` returns false without
panicking on every input whose decoded length differs from the expectation,
including inputs whose decoded length exceeds it.  A real-token argument of
44 alphabet characters (44 × `A`) decodes to 33 bytes; Go's
`base64.Decode` writes them into the 32-byte array and indexes past its
end — a runtime panic (`none` in the model), not a false return. -/
theorem csrf_verify_overlong_panics :
    csrfVerify (List.replicate 32 0) (List.replicate 44 65) [] = none ∧
      csrfVerify (List.replicate 32 0) (List.replicate 44 65) [] ≠ some false := by
  constructor
  · decide
  · decide

/-- C4 (amended): whenever the base64 decode of an input completes without
overrunning its fixed buffer and yields a byte count different from the
expected length (32 for the real token, 64 for the sent token),
`csrfVerify` returns false without panicking. -/
theorem csrf_verify_malformed_lengths (secret realTok sentTok : List Nat) :
    (∀ rb n e, b64Decode b64UrlDecodeByte csrfTokenLength realTok = some (rb, n, e) →
      n ≠ csrfTokenLength → csrfVerify secret realTok sentTok = some false) ∧
    (∀ rb e sb m e2,
      b64Decode b64UrlDecodeByte csrfTokenLength realTok = some (rb, csrfTokenLength, e) →
      b64Decode b64UrlDecodeByte (2 * csrfTokenLength) sentTok = some (sb, m, e2) →
      m ≠ 2 * csrfTokenLength → csrfVerify secret realTok sentTok = some false) := by
  constructor
  · intro rb n e hdec hn
    rw [csrfVerify, hdec]
    simp [hn]
  · intro rb e sb m e2 hr hsent hm
    rw [csrfVerify, hr]
    simp only [ne_eq, not_true_eq_false, if_false, reduceIte]
    rw [hsent]
    simp [hm]

/-- Witness for the amended C4: `verify(secret, "short", sent)` (the five
bytes of "short" decode to 3 bytes with an error) and
`verify(secret, real, "")` (an empty sent token decodes to 0 bytes) both
return false. -/
theorem csrf_verify_malformed_lengths_witness :
    csrfVerify (List.replicate 32 0) [115, 104, 111, 114, 116] [] = some false ∧
    csrfVerify (List.replicate 32 0) (b64UrlEncode (List.replicate 32 0)) [] =
      some false := by
  constructor
  · exact (csrf_verify_malformed_lengths (List.replicate 32 0)
      [115, 104, 111, 114, 116] []).1 [178, 26, 43] 3 true (by decide) (by decide)
  · exact (csrf_verify_malformed_lengths (List.replicate 32 0)
      (b64UrlEncode (List.replicate 32 0)) []).2 (List.replicate 32 0) false [] 0 false
      (by decide) (by decide) (by decide)

theorem toUint64_lt (i : Int) : toUint64 i < 2 ^ 64 := by
  rw [toUint64]
  have h2 := Int.emod_lt_of_pos i (show (0:Int) < 2 ^ 64 by norm_num)
  have h3 := Int.emod_nonneg i (show (2:Int) ^ 64 ≠ 0 by norm_num)
  omega

theorem readUint64LE_putUint64LE (n : Nat) (h : n < 2 ^ 64) :
    readUint64LE (putUint64LE n) = n := by
  simp only [readUint64LE, putUint64LE, List.getD_cons_zero, List.getD_cons_succ]
  omega

theorem putUint64LE_length (n : Nat) : (putUint64LE n).length = 8 := by
  simp [putUint64LE]

/-- Composition of token creation and verification with the same secret
and session ID: the length and signature checks pass, and the result is
exactly the expiry comparison on the reconstructed instant
`time.Unix(secs, nsec)`. -/
theorem csrfVerifyToken_createToken (mac : List Nat → List Nat → List Nat)
    (hmac32 : ∀ k m, (mac k m).length = 32) (secret sessionID : List Nat)
    (d now now2 : Int) :
    csrfVerifyToken mac secret (csrfCreateToken mac secret sessionID d now)
        sessionID now2 =
      decide (now2 <
        toInt64 (toUint64 ((now + d).fdiv 1000000000)) * 1000000000 +
          toInt64 (toUint64 (now + d))) := by
  rw [csrfCreateToken, csrfVerifyToken]
  have h8a := putUint64LE_length (toUint64 ((now + d).fdiv 1000000000))
  have h8b := putUint64LE_length (toUint64 (now + d))
  set p1 := putUint64LE (toUint64 ((now + d).fdiv 1000000000)) with hp1
  set p2 := putUint64LE (toUint64 (now + d)) with hp2
  have hblen : (p1 ++ p2).length = 16 := by simp [h8a, h8b]
  have hlen : (p1 ++ p2 ++ mac secret (p1 ++ p2 ++ sessionID)).length = 48 := by
    rw [List.length_append, List.length_append, hmac32, h8a, h8b]
  rw [if_neg (by rw [hlen]; simp)]
  have hdrop : (p1 ++ p2 ++ mac secret (p1 ++ p2 ++ sessionID)).drop 16 =
      mac secret (p1 ++ p2 ++ sessionID) :=
    List.drop_left' hblen
  have htake : (p1 ++ p2 ++ mac secret (p1 ++ p2 ++ sessionID)).take 16 = p1 ++ p2 :=
    List.take_left' hblen
  rw [hdrop, htake]
  rw [if_neg (by
    simp only [hmacEqual, (constantTimeCompare_eq_one _ _).mpr rfl]
    simp)]
  have htake8 : (p1 ++ p2 ++ mac secret (p1 ++ p2 ++ sessionID)).take 8 = p1 := by
    rw [List.append_assoc]
    exact List.take_left' h8a
  have hdrop8 : ((p1 ++ p2 ++ mac secret (p1 ++ p2 ++ sessionID)).drop 8).take 8 = p2 := by
    rw [List.append_assoc, List.drop_left' h8a]
    exact List.take_left' h8b
  rw [htake8, hdrop8, hp1, hp2,
    readUint64LE_putUint64LE _ (toUint64_lt _), readUint64LE_putUint64LE _ (toUint64_lt _)]

/-- C2 (refuting the first half): a token created by `csrfCreateToken`
with duration −1 second — already expired at creation — is nevertheless
accepted by `csrfVerifyToken` with the correct secret and session ID at
that same instant.  Creation serializes `(endTime.Unix(),
endTime.UnixNano())`, but verification reconstructs `time.Unix(secs,
nsec)`, treating the second field (total nanoseconds since the epoch) as
a nanosecond offset added to the seconds, so the reconstructed expiry
lies decades in the future and the expiry check never fires. -/
theorem csrf_expired_token_accepted (mac : List Nat → List Nat → List Nat)
    (hmac32 : ∀ k m, (mac k m).length = 32) :
    csrfVerifyToken mac [1]
      (csrfCreateToken mac [1] [97] (-1000000000) 1700000000000000000) [97]
      1700000000000000000 = true := by
  rw [csrfVerifyToken_createToken mac hmac32 [1] [97] (-1000000000)
    1700000000000000000 1700000000000000000]
  decide

/-- Witness for C2's theorem with a concrete MAC function. -/
theorem csrf_expired_token_accepted_witness :
    csrfVerifyToken (fun _ _ => List.replicate 32 0) [1]
      (csrfCreateToken (fun _ _ => List.replicate 32 0) [1] [97] (-1000000000)
        1700000000000000000) [97] 1700000000000000000 = true :=
  csrf_expired_token_accepted (fun _ _ => List.replicate 32 0)
    (fun _ _ => by simp)

/-- C6 counterexample: with an exemption predicate configured that
returns false, a non-safe request whose URL path matches a configured
exemption glob is NOT exempt — the path-glob condition alone does not
suffice, because `ExemptPaths` is ignored whenever `ExemptFunc` is set. -/
theorem exempt_glob_not_sufficient :
    CSRFMasked.exempt
      { cfgM0 with exemptFunc := some fun _ => false, exemptPaths := ["/x"] }
      { reqPost with urlPath := "/x" } = false ∧
    stringsMatch ["/x"] "/x" = true ∧
    Safe { reqPost with urlPath := "/x" } = false := by
  refine ⟨by decide, by decide, by decide⟩

/-- C6 (amended): a safe method alone always exempts, in both variants;
when an exemption predicate is configured it alone decides every
non-safe request and the path globs are ignored; only when no predicate
is configured do the path globs decide. -/
theorem exempt_structure (cfgM : CSRFMasked) (cfgH : CSRFHmac) (r : Request) :
    (Safe r = true → cfgM.exempt r = true ∧ cfgH.exempt r = true) ∧
    (∀ f, cfgM.exemptFunc = some f → cfgM.exempt r = (Safe r || f r)) ∧
    (cfgM.exemptFunc = none →
      cfgM.exempt r = (Safe r || stringsMatch cfgM.exemptPaths r.urlPath)) ∧
    (∀ f, cfgH.exemptFunc = some f → cfgH.exempt r = (Safe r || f r)) ∧
    (cfgH.exemptFunc = none →
      cfgH.exempt r = (Safe r || stringsMatch cfgH.exemptPaths r.urlPath)) := by
  refine ⟨?_, ?_, ?_, ?_, ?_⟩
  · intro h
    constructor <;> simp [CSRFMasked.exempt, CSRFHmac.exempt, h]
  · intro f hf
    by_cases h : Safe r <;> simp [CSRFMasked.exempt, hf, h]
  · intro hf
    by_cases h : Safe r <;> simp [CSRFMasked.exempt, hf, h]
  · intro f hf
    by_cases h : Safe r <;> simp [CSRFHmac.exempt, hf, h]
  · intro hf
    by_cases h : Safe r <;> simp [CSRFHmac.exempt, hf, h]

/-- Witness for the amended C6 at concrete inputs. -/
theorem exempt_structure_witness :
    (CSRFMasked.exempt cfgM0 reqGet = true ∧ CSRFHmac.exempt cfgH0 reqGet = true) ∧
    CSRFMasked.exempt cfgM0 reqPost =
      (Safe reqPost || stringsMatch cfgM0.exemptPaths reqPost.urlPath) :=
  ⟨(exempt_structure cfgM0 cfgH0 reqGet).1 (by decide),
   (exempt_structure cfgM0 cfgH0 reqPost).2.2.1 rfl⟩

/-- C7: Fail-fast configuration validation.  Constructing the
masked-variant middleware panics (no handler is built) when the cookie
name or field name is empty, when a `__Host-` cookie lacks the Secure
flag or has a non-empty domain or a non-root path, or when a `__Secure-`
cookie lacks the Secure flag; constructing the HMAC variant panics when
the secret is empty. -/
theorem handler_construction_fail_fast (cfgM : CSRFMasked) (cfgH : CSRFHmac) :
    (cfgM.cookieName = "" → cfgM.Handler = none) ∧
    (cfgM.fieldName = "" → cfgM.Handler = none) ∧
    (hasPrefix cfgM.cookieName "__Host-" = true →
      (cfgM.secure = false ∨ cfgM.domain ≠ "" ∨ cfgM.path ≠ "/") →
      cfgM.Handler = none) ∧
    (hasPrefix cfgM.cookieName "__Secure-" = true → cfgM.secure = false →
      cfgM.Handler = none) ∧
    (cfgH.secret = [] → cfgH.Handler = none) := by
  refine ⟨?_, ?_, ?_, ?_, ?_⟩
  · intro h; simp [CSRFMasked.Handler, h]
  · intro h
    by_cases h1 : cfgM.cookieName = "" <;> simp [CSRFMasked.Handler, h1, h]
  · intro hpre hbad
    by_cases h1 : cfgM.cookieName = ""
    · simp [CSRFMasked.Handler, h1]
    · by_cases h2 : cfgM.fieldName = ""
      · simp [CSRFMasked.Handler, h1, h2]
      · have hb : (!cfgM.secure || cfgM.domain != "" || cfgM.path != "/") = true := by
          rcases hbad with h | h | h <;> simp [h]
        simp [CSRFMasked.Handler, h1, h2, hpre, hb]
  · intro hpre hsec
    by_cases h1 : cfgM.cookieName = ""
    · simp [CSRFMasked.Handler, h1]
    · by_cases h2 : cfgM.fieldName = ""
      · simp [CSRFMasked.Handler, h1, h2]
      · by_cases h3 : hasPrefix cfgM.cookieName "__Host-" &&
            (!cfgM.secure || cfgM.domain != "" || cfgM.path != "/")
        · simp [CSRFMasked.Handler, h1, h2, h3]
        · simp [CSRFMasked.Handler, h1, h2, h3, hpre, hsec]
  · intro h; simp [CSRFHmac.Handler, h]

/-- Witness for C7: `__Host-session` with `Secure=false`, and an empty
HMAC secret. -/
theorem handler_construction_fail_fast_witness :
    CSRFMasked.Handler
      { cfgM0 with cookieName := "__Host-session", secure := false } = none ∧
    CSRFHmac.Handler { cfgH0 with secret := [] } = none :=
  ⟨(handler_construction_fail_fast
      { cfgM0 with cookieName := "__Host-session", secure := false } cfgH0).2.2.1
      (by decide) (Or.inl rfl),
   (handler_construction_fail_fast cfgM0 { cfgH0 with secret := [] }).2.2.2.2 rfl⟩

/-- C5 counterexample: both middleware rejections are 403 and terminal,
but the masked variant passes different error values — the origin check
rejects with the generic Forbidden error while token verification
rejects with `ErrBadCSRF` ("csrf validation failed") — so the default
text error handler writes response bodies that distinguish the cause. -/
theorem masked_rejection_bodies_differ :
    (maskedServe cfgM0 parse0 reqEvilReferer (List.replicate 32 0)
      (List.replicate 32 0)).map (fun run => (run.status, run.errMsg)) =
        some (some 403, some "Forbidden") ∧
    (maskedServe cfgM0 parse0 reqPost (List.replicate 32 0)
      (List.replicate 32 0)).map (fun run => (run.status, run.errMsg)) =
        some (some 403, some "csrf validation failed") := by
  exact ⟨by decide, by decide⟩

/-- C5 (amended): every rejection by the middleware short-circuits the
request with status 403 and the downstream handler is never invoked, in
both variants; the HMAC variant carries the same generic Forbidden error
for every cause, while the masked variant carries one of two distinct
error values, so its default error body can distinguish origin failure
from token failure even though the status is uniformly 403. -/
theorem rejection_terminal_403 (cfgM : CSRFMasked) (cfgH : CSRFHmac)
    (sf : Request → String × Bool) (parse : String → Option URLRec)
    (mac : List Nat → List Nat → List Nat) (now : Int) (r : Request)
    (nc nn : List Nat) :
    (∀ run, maskedServe cfgM parse r nc nn = some run →
      run.status.isSome = true →
      run.status = some 403 ∧ run.nextInvoked = false ∧
        (run.errMsg = some "Forbidden" ∨
          run.errMsg = some "csrf validation failed")) ∧
    (∀ run, hmacServe cfgH sf parse mac now r = run →
      run.status.isSome = true →
      run.status = some 403 ∧ run.nextInvoked = false ∧
        run.errMsg = some "Forbidden") := by
  constructor
  · intro run hrun hsome
    simp only [maskedServe] at hrun
    split at hrun
    · simp at hrun
    · split at hrun
      · cases hrun; simp
      · split at hrun
        · cases hrun; simp at hsome
        · split at hrun
          · simp at hrun
          · split at hrun
            · cases hrun; simp at hsome
            · cases hrun; simp
  · intro run hrun hsome
    subst hrun
    simp only [hmacServe] at hsome ⊢
    split at hsome <;> split <;> simp_all

/-- Witness for the amended C5, applying both parts at concrete inputs:
the masked run of a no-token POST and the HMAC run of the same POST. -/
theorem rejection_terminal_403_witness :
    (runPost.status = some 403 ∧ runPost.nextInvoked = false ∧
      (runPost.errMsg = some "Forbidden" ∨
        runPost.errMsg = some "csrf validation failed")) ∧
    ((hmacServe cfgH0 (fun _ => ("a", true)) parse0
        (fun _ _ => List.replicate 32 0) 1700000000000000000 reqPost).status =
          some 403 ∧
      (hmacServe cfgH0 (fun _ => ("a", true)) parse0
        (fun _ _ => List.replicate 32 0) 1700000000000000000 reqPost).nextInvoked =
          false ∧
      (hmacServe cfgH0 (fun _ => ("a", true)) parse0
        (fun _ _ => List.replicate 32 0) 1700000000000000000 reqPost).errMsg =
          some "Forbidden") :=
  ⟨(rejection_terminal_403 cfgM0 cfgH0 (fun _ => ("a", true)) parse0
      (fun _ _ => List.replicate 32 0) 1700000000000000000 reqPost
      (List.replicate 32 0) (List.replicate 32 0)).1 runPost (by decide) (by decide),
   (rejection_terminal_403 cfgM0 cfgH0 (fun _ => ("a", true)) parse0
      (fun _ _ => List.replicate 32 0) 1700000000000000000 reqPost
      (List.replicate 32 0) (List.replicate 32 0)).2 _ rfl (by decide)⟩

/-- C9 counterexample: the HMAC-variant handler adds no `Vary` response
header at all — here a processed and rejected (403) request whose
response gains no Vary entry, against the claim that both variants add
one. -/
theorem hmac_adds_no_vary :
    (hmacServe cfgH0 (fun _ => ("a", true)) parse0
      (fun _ _ => List.replicate 32 0) 1700000000000000000 reqPost).vary = [] ∧
    (hmacServe cfgH0 (fun _ => ("a", true)) parse0
      (fun _ _ => List.replicate 32 0) 1700000000000000000 reqPost).status =
        some 403 := by
  exact ⟨by decide, by decide⟩

/-- C9 (amended): the masked variant adds a `Vary: Cookie` entry on
every request it completes without panicking, including requests
rejected with 403; the HMAC variant adds no Vary entry on any request. -/
theorem vary_header_by_variant (cfgM : CSRFMasked) (cfgH : CSRFHmac)
    (sf : Request → String × Bool) (parse : String → Option URLRec)
    (mac : List Nat → List Nat → List Nat) (now : Int) (r : Request)
    (nc nn : List Nat) :
    (∀ run, maskedServe cfgM parse r nc nn = some run →
      run.vary = ["Cookie"]) ∧
    (∀ run, hmacServe cfgH sf parse mac now r = run → run.vary = []) := by
  constructor
  · intro run hrun
    simp only [maskedServe] at hrun
    split at hrun
    · simp at hrun
    · split at hrun
      · cases hrun; rfl
      · split at hrun
        · cases hrun; rfl
        · split at hrun
          · simp at hrun
          · split at hrun <;> (cases hrun; rfl)
  · intro run hrun
    subst hrun
    simp only [hmacServe]
    split <;> rfl

/-- Witness for the amended C9 at concrete inputs. -/
theorem vary_header_by_variant_witness :
    runPost.vary = ["Cookie"] ∧
    (hmacServe cfgH0 (fun _ => ("a", true)) parse0
      (fun _ _ => List.replicate 32 0) 1700000000000000000 reqGet).vary = [] :=
  ⟨(vary_header_by_variant cfgM0 cfgH0 (fun _ => ("a", true)) parse0
      (fun _ _ => List.replicate 32 0) 1700000000000000000 reqPost
      (List.replicate 32 0) (List.replicate 32 0)).1 runPost (by decide),
   (vary_header_by_variant cfgM0 cfgH0 (fun _ => ("a", true)) parse0
      (fun _ _ => List.replicate 32 0) 1700000000000000000 reqGet
      (List.replicate 32 0) (List.replicate 32 0)).2 _ rfl⟩

/-- C10: implicit effect ordering in the masked variant.  For every
request that completes without panicking: the `Vary: Cookie` entry, the
context token attachment, and the cookie regeneration (exactly when the
incoming cookie's decode did not yield 32 bytes) are present on every
run, including runs rejected with 403; the `X-CSRF-Token` response
header is absent from every rejected run and present exactly when the
downstream handler is invoked. -/
theorem masked_effect_ordering (cfgM : CSRFMasked)
    (parse : String → Option URLRec) (r : Request) (nc nn : List Nat) :
    ∀ run, maskedServe cfgM parse r nc nn = some run →
      run.vary = ["Cookie"] ∧ run.ctxToken.isSome = true ∧
      (run.status = some 403 → run.xCsrfHeader = none) ∧
      (run.nextInvoked = true → run.xCsrfHeader.isSome = true) ∧
      (∀ ck n e, b64Decode b64UrlDecodeByte csrfTokenLength
          ((r.cookies cfgM.cookieName).getD []) = some (ck, n, e) →
        (run.cookieSet.isSome = true ↔ n ≠ csrfTokenLength)) := by
  intro run hrun
  simp only [maskedServe] at hrun
  split at hrun
  next hdec => simp at hrun
  next ck0 n0 e0 hdec =>
    have hcookie : ∀ ck n e, b64Decode b64UrlDecodeByte csrfTokenLength
        ((r.cookies cfgM.cookieName).getD []) = some (ck, n, e) →
        n = n0 := by
      intro ck n e h
      rw [hdec] at h
      cases h
      rfl
    split at hrun
    · cases hrun
      refine ⟨rfl, rfl, by simp, by simp, ?_⟩
      intro ck n e h
      rw [hcookie ck n e h]
      by_cases hn : n0 = csrfTokenLength <;> simp [hn]
    · split at hrun
      · cases hrun
        refine ⟨rfl, rfl, by simp, by simp, ?_⟩
        intro ck n e h
        rw [hcookie ck n e h]
        by_cases hn : n0 = csrfTokenLength <;> simp [hn]
      · split at hrun
        · simp at hrun
        · split at hrun <;>
          · cases hrun
            refine ⟨rfl, rfl, by simp, by simp, ?_⟩
            intro ck n e h
            rw [hcookie ck n e h]
            by_cases hn : n0 = csrfTokenLength <;> simp [hn]

/-- Witness for C10 at a concrete rejected request. -/
theorem masked_effect_ordering_witness :
    runPost.vary = ["Cookie"] ∧ runPost.ctxToken.isSome = true ∧
    (runPost.status = some 403 → runPost.xCsrfHeader = none) ∧
    (runPost.nextInvoked = true → runPost.xCsrfHeader.isSome = true) ∧
    (∀ ck n e, b64Decode b64UrlDecodeByte csrfTokenLength
        ((reqPost.cookies cfgM0.cookieName).getD []) = some (ck, n, e) →
      (runPost.cookieSet.isSome = true ↔ n ≠ csrfTokenLength)) :=
  masked_effect_ordering cfgM0 parse0 reqPost (List.replicate 32 0)
    (List.replicate 32 0) runPost (by decide)

/-- C8 counterexample: the claim requires a `Set-Cookie` whenever the
incoming cookie's value fails to base64-decode to exactly 32 bytes.  A
cookie of 44 base64 characters decodes to 33 bytes, which overruns the
fixed 32-byte buffer: the handler panics (aborts) and writes no
`Set-Cookie` at all. -/
theorem overlong_cookie_panics :
    maskedServe cfgM0 parse0 reqOverlongCookie (List.replicate 32 0)
      (List.replicate 32 0) = none := by
  decide

/-- C8 (amended): on every request whose cookie decode completes without
overrunning the 32-byte buffer, a `Set-Cookie` is emitted iff the decode
did not yield exactly 32 bytes; a regenerated cookie carries the
configured name, the base64 encoding of the fresh random bytes as its
value, and a max-age of one year (365 days in seconds); when the decode
yields exactly 32 bytes, no `Set-Cookie` is emitted and the incoming
value is reused unchanged. -/
theorem cookie_lifecycle (cfgM : CSRFMasked) (parse : String → Option URLRec)
    (r : Request) (nc nn : List Nat) :
    ∀ run ck n e, maskedServe cfgM parse r nc nn = some run →
      b64Decode b64UrlDecodeByte csrfTokenLength
        ((r.cookies cfgM.cookieName).getD []) = some (ck, n, e) →
      (run.cookieSet.isSome = true ↔ n ≠ csrfTokenLength) ∧
      (∀ rec, run.cookieSet = some rec →
        rec.maxAge = 365 * 24 * 60 * 60 ∧ rec.name = cfgM.cookieName ∧
          rec.value = b64UrlEncode nc) ∧
      (n = csrfTokenLength → run.cookieSet = none) := by
  intro run ck n e hrun hdec
  simp only [maskedServe, hdec] at hrun
  have hcases : run.cookieSet = (if n ≠ csrfTokenLength then
      some { name := cfgM.cookieName, value := b64UrlEncode nc,
             path := cfgM.path, domain := cfgM.domain,
             maxAge := 365 * 24 * 60 * 60, secure := cfgM.secure,
             httpOnly := cfgM.httpOnly, sameSite := cfgM.sameSite }
    else none) := by
    split at hrun
    · cases hrun
      by_cases hn : n = csrfTokenLength <;> simp [hn]
    · split at hrun
      · cases hrun
        by_cases hn : n = csrfTokenLength <;> simp [hn]
      · split at hrun
        · simp at hrun
        · split at hrun <;>
            (cases hrun; by_cases hn : n = csrfTokenLength <;> simp [hn])
  rw [hcases]
  by_cases hn : n = csrfTokenLength
  · simp [hn]
  · simp only [hn, ne_eq, not_false_eq_true, if_true, reduceIte]
    refine ⟨by simp, ?_, by simp [hn]⟩
    intro rec hrec
    cases hrec
    exact ⟨rfl, rfl, rfl⟩

/-- Witness for the amended C8 at a concrete request with no cookie
(decode yields 0 bytes): the cookie is regenerated with a one-year
max-age. -/
theorem cookie_lifecycle_witness :
    (runPost.cookieSet.isSome = true ↔ 0 ≠ csrfTokenLength) ∧
    (∀ rec, runPost.cookieSet = some rec →
      rec.maxAge = 365 * 24 * 60 * 60 ∧ rec.name = cfgM0.cookieName ∧
        rec.value = b64UrlEncode (List.replicate 32 0)) ∧
    (0 = csrfTokenLength → runPost.cookieSet = none) :=
  cookie_lifecycle cfgM0 parse0 reqPost (List.replicate 32 0)
    (List.replicate 32 0) runPost [] 0 false (by decide) (by decide)

end Httpsy
